import Mathlib

/-!
Shallow embedding of the banking-ledger transaction core.

Sources embedded (Go):
- `internal/domain` error values and model types (src/unnamed/part_002);
- the account store CAS contract `UpdateBalance` and lookups, following the
  map-based `MockAccountRepository` (src/unnamed/part_007), whose behaviour on
  existing rows coincides with `PostgreSQLAccountRepository.UpdateBalance`
  (src/unnamed/part_003: `UPDATE ... SET balance = $1, version = version + 1
  WHERE id = $3 AND version = $4`, zero rows affected -> ConcurrentUpdate);
- the journal operations following `MockTransactionRepository`
  (src/unnamed/part_007) and `MongoTransactionRepository`
  (src/internal/queue/rabbitmq.go, second file section);
- `TransactionRequest.IsValid` (src/unnamed/part_002);
- `AccountUseCase.CreateAccount` (src/unnamed/part_004);
- `TransactionUseCase`: `ProcessTransaction`, `ProcessTransactionSync`,
  `processDeposit`, `processWithdrawal`, `processTransfer`,
  `CancelTransaction`, and the message handler closure of
  `StartTransactionProcessor` (src/unnamed/part_005);
- `RabbitMQQueue.processMessageWithRetry` (src/internal/queue/rabbitmq.go).

Modelling conventions:
- Monetary values (`balance`, `amount`) are Go `float64`; the specification
  describes them as exact fixed-point values.  The code only adds, subtracts
  and compares them, so they are modelled as exact integers (`Int`, minor
  units); every concrete value in the claims is an integer.
- `version` is Go `int64`, modelled as `Int` (it only ever increments by 1;
  overflow is immaterial to the claims).
- Wall-clock fields (`createdAt`, `updatedAt`, `processedAt`) and the opaque
  `description`/`reference`/`metadata` payloads are omitted: no embedded
  operation branches on them.
- The Go repositories store accounts/transactions in a map (mock) or table;
  both are modelled as a list of records with unique ids, map assignment
  being replace-or-append.
- Fallible Go calls return `(new state, Option Err)`; an early `return err`
  in Go leaves the store untouched, which the embedding makes explicit by
  returning the unchanged list alongside the error.
- JSON (un)marshalling of a `TransactionRequest` never fails for this struct
  and is treated as the identity; the queue transport is external and a
  publish outcome is passed in as a parameter.
-/

namespace BankingLedger

/-- The `domain` error values (src/unnamed/part_002).  `publishFailed` stands
for the error value returned by the external queue's `Publish`, carrying its
message text. -/
inductive Err where
  | accountNotFound
  | accountExists
  | insufficientFunds
  | accountInactive
  | invalidAccountID
  | concurrentUpdate
  | transactionNotFound
  | invalidAmount
  | invalidTransactionType
  | missingCurrency
  | missingFromAccount
  | missingToAccount
  | missingAccounts
  | sameAccount
  | transactionAlreadyProcessed
  | currencyMismatch
  | invalidInput
  | publishFailed (msg : String)
  deriving DecidableEq, Repr

/-- `Error()` strings of the `domain` error values (src/unnamed/part_002);
for `publishFailed` the transport's own message. -/
def Err.message : Err → String
  | .accountNotFound => "account not found"
  | .accountExists => "account already exists"
  | .insufficientFunds => "insufficient funds"
  | .accountInactive => "account is inactive"
  | .invalidAccountID => "invalid account ID"
  | .concurrentUpdate => "concurrent update detected"
  | .transactionNotFound => "transaction not found"
  | .invalidAmount => "invalid amount"
  | .invalidTransactionType => "invalid transaction type"
  | .missingCurrency => "missing currency"
  | .missingFromAccount => "missing from account"
  | .missingToAccount => "missing to account"
  | .missingAccounts => "missing from and to accounts"
  | .sameAccount => "from and to accounts cannot be the same"
  | .transactionAlreadyProcessed => "transaction already processed"
  | .currencyMismatch => "currency mismatch"
  | .invalidInput => "invalid input"
  | .publishFailed m => m

/-- `domain.TransactionStatus` (src/unnamed/part_002).  A Go string type whose
only values written anywhere in the embedded code are the four constants. -/
inductive TransactionStatus where
  | pending
  | completed
  | failed
  | cancelled
  deriving DecidableEq, Repr

/-- `domain.Account` (src/unnamed/part_002).  `status` and the transaction
type are Go strings and stay strings here ("active", "inactive", ...). -/
structure Account where
  id : String
  userID : String
  balance : Int
  currency : String
  status : String
  version : Int
  deriving DecidableEq, Repr

/-- `domain.Transaction` (src/unnamed/part_002), journal record. -/
structure Transaction where
  id : String
  type : String
  fromAccountID : Option String
  toAccountID : Option String
  amount : Int
  currency : String
  status : TransactionStatus
  errorMessage : String
  deriving DecidableEq, Repr

/-- `domain.TransactionRequest` (src/unnamed/part_002).  `type` is the Go
string type `TransactionType`, so values other than "deposit", "withdrawal",
"transfer" are representable, as in Go. -/
structure TransactionRequest where
  id : String
  type : String
  fromAccountID : Option String
  toAccountID : Option String
  amount : Int
  currency : String
  deriving DecidableEq, Repr

/-- Account store state: the rows of the `accounts` map/table. -/
abbrev AccountStore := List Account

/-- Journal store state: the rows of the `transactions` map/collection. -/
abbrev TransactionStore := List Transaction

/-- `GetByID` on the account store (src/unnamed/part_007 lines 45-51):
lookup by id, `ErrAccountNotFound` when absent.  The PostgreSQL repository
returns a value copy of the row, which is what a functional lookup yields. -/
def GetByID (s : AccountStore) (id : String) : Option Account :=
  s.find? (fun a => a.id = id)

/-- `UpdateBalance(id, newBalance, version)` (src/unnamed/part_007 lines
79-93; equivalently src/unnamed/part_003 lines 125-147 on existing rows):
if the id is absent fail with `accountNotFound`; if the stored version
differs from the supplied one fail with `concurrentUpdate` and change
nothing; otherwise set the balance to `newBalance` and increment the version
by 1.  Returns the resulting store and the error outcome. -/
def UpdateBalance (s : AccountStore) (id : String) (newBalance : Int)
    (version : Int) : AccountStore × Option Err :=
  match s.find? (fun a => a.id = id) with
  | none => (s, some .accountNotFound)
  | some account =>
    if account.version ≠ version then (s, some .concurrentUpdate)
    else
      (s.map fun b =>
        if b.id = id then { b with balance := newBalance, version := b.version + 1 }
        else b, none)

/-- Go map assignment `m.accounts[account.ID] = account`: replace the row
with that id when present, append otherwise. -/
def storePut (s : AccountStore) (a : Account) : AccountStore :=
  if s.any (fun b => b.id = a.id) then
    s.map fun b => if b.id = a.id then a else b
  else s ++ [a]

/-- Journal lookup `GetByID` (src/unnamed/part_007 lines 137-143). -/
def txGetByID (ts : TransactionStore) (id : String) : Option Transaction :=
  ts.find? (fun t => t.id = id)

/-- Journal `Create` (src/unnamed/part_007 lines 127-135): map assignment,
always succeeds.  The caller supplies a non-empty id. -/
def txCreate (ts : TransactionStore) (t : Transaction) : TransactionStore :=
  if ts.any (fun u => u.id = t.id) then
    ts.map fun u => if u.id = t.id then t else u
  else ts ++ [t]

/-- Journal `UpdateStatus(id, status, errorMessage)` (src/unnamed/part_007
lines 174-187; the Mongo version at src/internal/queue/rabbitmq.go has the
same effect on an existing row): unconditionally overwrite `status` and
`errorMessage` of the record; `transactionNotFound` when the id is absent.
No guard of any kind inspects the current status. -/
def txUpdateStatus (ts : TransactionStore) (id : String)
    (status : TransactionStatus) (errorMessage : String) :
    TransactionStore × Option Err :=
  match ts.find? (fun t => t.id = id) with
  | none => (ts, some .transactionNotFound)
  | some _ =>
    (ts.map fun t =>
      if t.id = id then { t with status := status, errorMessage := errorMessage }
      else t, none)

/-- `TransactionRequest.IsValid` (src/unnamed/part_002 lines 102-132).
`none` means valid. -/
def TransactionRequest.IsValid (tr : TransactionRequest) : Option Err :=
  if tr.amount ≤ 0 then some .invalidAmount
  else if tr.currency = "" then some .missingCurrency
  else
    match tr.type with
    | "deposit" =>
      if tr.toAccountID = none then some .missingToAccount else none
    | "withdrawal" =>
      if tr.fromAccountID = none then some .missingFromAccount else none
    | "transfer" =>
      match tr.fromAccountID, tr.toAccountID with
      | some fromID, some toID =>
        if fromID = toID then some .sameAccount else none
      | _, _ => some .missingAccounts
    | _ => some .invalidTransactionType

/-- Modelled from the spec (section 4.3), for comparison with the source's
`IsValid`: "Rules, checked in this precedence order: amount ≤ 0 →
InvalidAmount; currency empty → MissingCurrency; then by type — deposit
requires toAccountID (else MissingToAccount); withdrawal requires
fromAccountID (else MissingFromAccount); transfer requires both (else
MissingAccounts) and requires fromAccountID ≠ toAccountID (else
SameAccount); any other type value → InvalidTransactionType." -/
def validateSpec (tr : TransactionRequest) : Option Err :=
  if tr.amount ≤ 0 then some .invalidAmount
  else if tr.currency = "" then some .missingCurrency
  else if tr.type = "deposit" then
    if tr.toAccountID.isNone then some .missingToAccount else none
  else if tr.type = "withdrawal" then
    if tr.fromAccountID.isNone then some .missingFromAccount else none
  else if tr.type = "transfer" then
    if tr.fromAccountID.isNone ∨ tr.toAccountID.isNone then some .missingAccounts
    else if tr.fromAccountID = tr.toAccountID then some .sameAccount
    else none
  else some .invalidTransactionType

/-- Combined state of the two independent stores: the account store and the
transaction journal (separate consistency domains; no shared transaction). -/
structure LedgerState where
  accounts : AccountStore
  txns : TransactionStore
  deriving DecidableEq, Repr

/-- `AccountUseCase.CreateAccount` (src/unnamed/part_004 lines 30-56)
composed with the repository `Create` (src/unnamed/part_007 lines 25-43):
reject a negative initial balance (`invalidAmount`) or empty currency
(`missingCurrency`); reject an existing `(userID, currency)` pair
(`accountExists`); otherwise insert the account with `status = "active"` and
`version = 1`.  The use case generates a fresh uuid; the caller passes it as
`id`. -/
def CreateAccount (st : LedgerState) (id userID : String) (initialBalance : Int)
    (currency : String) : LedgerState × Option Err :=
  if initialBalance < 0 then (st, some .invalidAmount)
  else if currency = "" then (st, some .missingCurrency)
  else if st.accounts.any (fun a => a.userID = userID ∧ a.currency = currency) then
    (st, some .accountExists)
  else
    let fresh : Account :=
      { id := id, userID := userID, balance := initialBalance,
        currency := currency, status := "active", version := 1 }
    ({ st with accounts := storePut st.accounts fresh }, none)

/-- `TransactionUseCase.processDeposit` (src/unnamed/part_005 lines
108-134): read the destination account, require `status == "active"` and a
currency match, then CAS the balance up by the amount with the version just
read; on success mark the journal record completed.  The Go code
dereferences `*request.ToAccountID` unconditionally (a nil pointer panics);
that dead branch — `IsValid` has always run first — is rendered as
`invalidInput`. -/
def processDeposit (st : LedgerState) (r : TransactionRequest) :
    LedgerState × Option Err :=
  match r.toAccountID with
  | none => (st, some .invalidInput)
  | some toID =>
    match GetByID st.accounts toID with
    | none => (st, some .accountNotFound)
    | some account =>
      if account.status ≠ "active" then (st, some .accountInactive)
      else if account.currency ≠ r.currency then (st, some .currencyMismatch)
      else
        let upd := UpdateBalance st.accounts account.id
          (account.balance + r.amount) account.version
        match upd.2 with
        | some e => ({ st with accounts := upd.1 }, some e)
        | none =>
          let mark := txUpdateStatus st.txns r.id .completed ""
          ({ accounts := upd.1, txns := mark.1 }, mark.2)

/-- `TransactionUseCase.processWithdrawal` (src/unnamed/part_005 lines
137-168): as `processDeposit` on the source account, additionally requiring
`balance ≥ amount` (else `insufficientFunds`) before the debit CAS. -/
def processWithdrawal (st : LedgerState) (r : TransactionRequest) :
    LedgerState × Option Err :=
  match r.fromAccountID with
  | none => (st, some .invalidInput)
  | some fromID =>
    match GetByID st.accounts fromID with
    | none => (st, some .accountNotFound)
    | some account =>
      if account.status ≠ "active" then (st, some .accountInactive)
      else if account.currency ≠ r.currency then (st, some .currencyMismatch)
      else if account.balance < r.amount then (st, some .insufficientFunds)
      else
        let upd := UpdateBalance st.accounts account.id
          (account.balance - r.amount) account.version
        match upd.2 with
        | some e => ({ st with accounts := upd.1 }, some e)
        | none =>
          let mark := txUpdateStatus st.txns r.id .completed ""
          ({ accounts := upd.1, txns := mark.1 }, mark.2)

/-- `TransactionUseCase.processTransfer` (src/unnamed/part_005 lines
171-217): read both accounts, require both active and both matching the
request currency, require source funds; debit the source by CAS with the
version read; then credit the destination by CAS with the version read.  If
the credit fails, the compensation at line 211 re-applies the *pre-debit
snapshot* balance with the guessed version `fromAccount.Version + 1` — no
fresh read — and its own outcome is discarded; the credit's error is
returned.  On full success mark the journal record completed. -/
def processTransfer (st : LedgerState) (r : TransactionRequest) :
    LedgerState × Option Err :=
  match r.fromAccountID, r.toAccountID with
  | some fromID, some toID =>
    (match GetByID st.accounts fromID with
    | none => (st, some .accountNotFound)
    | some fromAccount =>
      match GetByID st.accounts toID with
      | none => (st, some .accountNotFound)
      | some toAccount =>
        if fromAccount.status ≠ "active" ∨ toAccount.status ≠ "active" then
          (st, some .accountInactive)
        else if fromAccount.currency ≠ r.currency ∨ toAccount.currency ≠ r.currency then
          (st, some .currencyMismatch)
        else if fromAccount.balance < r.amount then (st, some .insufficientFunds)
        else
          let debit := UpdateBalance st.accounts fromAccount.id
            (fromAccount.balance - r.amount) fromAccount.version
          match debit.2 with
          | some e => ({ st with accounts := debit.1 }, some e)
          | none =>
            let credit := UpdateBalance debit.1 toAccount.id
              (toAccount.balance + r.amount) toAccount.version
            match credit.2 with
            | some e =>
              let rollback := UpdateBalance credit.1 fromAccount.id
                fromAccount.balance (fromAccount.version + 1)
              ({ st with accounts := rollback.1 }, some e)
            | none =>
              let mark := txUpdateStatus st.txns r.id .completed ""
              ({ accounts := credit.1, txns := mark.1 }, mark.2))
  | _, _ => (st, some .invalidInput)

/-- `TransactionUseCase.ProcessTransactionSync` (src/unnamed/part_005 lines
89-105): validate, then dispatch on the type string. -/
def ProcessTransactionSync (st : LedgerState) (r : TransactionRequest) :
    LedgerState × Option Err :=
  match r.IsValid with
  | some e => (st, some e)
  | none =>
    match r.type with
    | "deposit" => processDeposit st r
    | "withdrawal" => processWithdrawal st r
    | "transfer" => processTransfer st r
    | _ => (st, some .invalidTransactionType)

/-- The message handler closure registered by
`TransactionUseCase.StartTransactionProcessor` (src/unnamed/part_005 lines
250-269): run `ProcessTransactionSync` on the delivered request; on failure
set the journal record to failed with the error's message (the
`UpdateStatus` outcome is discarded) and return the error (the queue layer
then retries / nacks); on success return nil (the queue layer acks).  There
is no re-read of the journal status before processing. -/
def processorHandler (st : LedgerState) (r : TransactionRequest) :
    LedgerState × Option Err :=
  let run := ProcessTransactionSync st r
  match run.2 with
  | some e =>
    let mark := txUpdateStatus run.1.txns r.id .failed e.message
    ({ run.1 with txns := mark.1 }, some e)
  | none => (run.1, none)

/-- `TransactionUseCase.ProcessTransaction` (src/unnamed/part_005 lines
39-86), the synchronous acceptance path: validate; take the request id (the
caller-supplied `freshID` standing for the generated uuid when the request
id is empty); write the journal record as pending; publish the request to
the dispatch queue — the transport outcome is the parameter `publishErr`
(`some m` = failure with message `m`).  On publish failure the just-created
record is set to failed with the publish error's message (that
`UpdateStatus` outcome is discarded) and an error is returned; on success
the pending transaction is returned. -/
def ProcessTransaction (st : LedgerState) (r : TransactionRequest)
    (freshID : String) (publishErr : Option String) :
    LedgerState × Option Transaction × Option Err :=
  match r.IsValid with
  | some e => (st, none, some e)
  | none =>
    let rid := if r.id = "" then freshID else r.id
    let txn : Transaction :=
      { id := rid, type := r.type, fromAccountID := r.fromAccountID,
        toAccountID := r.toAccountID, amount := r.amount,
        currency := r.currency, status := .pending, errorMessage := "" }
    let created := txCreate st.txns txn
    match publishErr with
    | some m =>
      let mark := txUpdateStatus created rid .failed m
      ({ st with txns := mark.1 }, none, some (.publishFailed m))
    | none => ({ st with txns := created }, some txn, none)

/-- `TransactionUseCase.CancelTransaction` (src/unnamed/part_005 lines
235-246): only a record still pending may be cancelled; otherwise
`transactionAlreadyProcessed`. -/
def CancelTransaction (st : LedgerState) (id : String) :
    LedgerState × Option Err :=
  match txGetByID st.txns id with
  | none => (st, some .transactionNotFound)
  | some t =>
    if t.status ≠ .pending then (st, some .transactionAlreadyProcessed)
    else
      let mark := txUpdateStatus st.txns id .cancelled "Cancelled by user"
      ({ st with txns := mark.1 }, mark.2)

/-- `maxRetries` of `RabbitMQQueue.processMessageWithRetry`
(src/internal/queue/rabbitmq.go line 147). -/
def maxRetries : Nat := 3

/-- `RabbitMQQueue.processMessageWithRetry` (src/internal/queue/rabbitmq.go
lines 146-167): invoke the handler up to `attempts` times (the caller passes
`maxRetries = 3`), stopping at the first success; if every attempt fails the
last error is returned (Go wraps it in "failed after N attempts: ...", which
adds only message text).  The middle component counts how many times the
handler was actually invoked; the backoff sleeps are timing only. -/
def processMessageWithRetry (handler : LedgerState → LedgerState × Option Err) :
    Nat → LedgerState → LedgerState × Nat × Option Err
  | 0, st => (st, 0, none)
  | n + 1, st =>
    let att := handler st
    match att.2 with
    | none => (att.1, 1, none)
    | some e =>
      match n with
      | 0 => (att.1, 1, some e)
      | m + 1 =>
        let rest := processMessageWithRetry handler (m + 1) att.1
        (rest.1, rest.2.1 + 1, rest.2.2)

/-! ### Concrete states used by witnesses and counterexamples -/

/-- Sample account "A": 500 USD, active, version 3. -/
def accA : Account :=
  { id := "A", userID := "u1", balance := 500, currency := "USD",
    status := "active", version := 3 }

/-- Sample account "B": 200 USD, active, version 7. -/
def accB : Account :=
  { id := "B", userID := "u2", balance := 200, currency := "USD",
    status := "active", version := 7 }

/-- Journal record of transaction "T1", a deposit of 100 to "A" that has
already completed. -/
def txDone : Transaction :=
  { id := "T1", type := "deposit", fromAccountID := none,
    toAccountID := some "A", amount := 100, currency := "USD",
    status := .completed, errorMessage := "" }

/-- The queued message for "T1" (deposit 100 to "A"), as redelivered. -/
def reqDep : TransactionRequest :=
  { id := "T1", type := "deposit", fromAccountID := none,
    toAccountID := some "A", amount := 100, currency := "USD" }

/-- State in which "T1" is already completed and its message is redelivered. -/
def stRedeliver : LedgerState := { accounts := [accA], txns := [txDone] }

/-- Journal record of transaction "T2", a deposit of 100 to "A" that the
user cancelled while it was still pending. -/
def txCanc : Transaction :=
  { id := "T2", type := "deposit", fromAccountID := none,
    toAccountID := some "A", amount := 100, currency := "USD",
    status := .cancelled, errorMessage := "Cancelled by user" }

/-- The queued message for "T2" (deposit 100 to "A"), delivered after the
cancellation. -/
def reqDep2 : TransactionRequest :=
  { id := "T2", type := "deposit", fromAccountID := none,
    toAccountID := some "A", amount := 100, currency := "USD" }

/-- State in which "T2" is cancelled but its message is still delivered. -/
def stCancelled : LedgerState := { accounts := [accA], txns := [txCanc] }

/-- Journal record of transaction "T3", a pending withdrawal of 600
from "A" (which only holds 500). -/
def txPend : Transaction :=
  { id := "T3", type := "withdrawal", fromAccountID := some "A",
    toAccountID := none, amount := 600, currency := "USD",
    status := .pending, errorMessage := "" }

/-- The queued message for "T3" (withdrawal of 600 from "A"). -/
def reqWd : TransactionRequest :=
  { id := "T3", type := "withdrawal", fromAccountID := some "A",
    toAccountID := none, amount := 600, currency := "USD" }

/-- State in which the insufficient-funds withdrawal "T3" is delivered. -/
def stInsufficient : LedgerState := { accounts := [accA], txns := [txPend] }

/-- Journal record of transaction "T4", a pending transfer of 150 from "A"
to "B". -/
def txPendTr : Transaction :=
  { id := "T4", type := "transfer", fromAccountID := some "A",
    toAccountID := some "B", amount := 150, currency := "USD",
    status := .pending, errorMessage := "" }

/-- The queued message for "T4" (transfer of 150 from "A" to "B"). -/
def reqTr : TransactionRequest :=
  { id := "T4", type := "transfer", fromAccountID := some "A",
    toAccountID := some "B", amount := 150, currency := "USD" }

/-- State in which the transfer "T4" is delivered. -/
def stTransfer : LedgerState := { accounts := [accA, accB], txns := [txPendTr] }

/-- Source account of the interleaved-transfer scenario: 1000 USD, version 3. -/
def accSrc : Account :=
  { id := "A", userID := "u1", balance := 1000, currency := "USD",
    status := "active", version := 3 }

/-- Destination account of the interleaved-transfer scenario: 500 USD,
version 7. -/
def accDst : Account :=
  { id := "B", userID := "u2", balance := 500, currency := "USD",
    status := "active", version := 7 }

/-- The exact sequence of account-store calls `processTransfer`
(src/unnamed/part_005 lines 171-217) makes for a transfer of 150 from "A"
to "B", with two interfering CAS commits from a concurrently running
processor interleaved between them (the spec's section 5 allows multiple
processor instances).  The three `processTransfer` calls use exactly the
arguments of the source: the debit writes
`fromAccount.Balance - amount` at `fromAccount.Version`, the credit writes
`toAccount.Balance + amount` at `toAccount.Version`, and the compensation
at line 211 re-applies the stale snapshot `fromAccount.Balance` at the
guessed version `fromAccount.Version + 1`, discarding the outcome.
Interference: a deposit of 100 to "A" commits between the debit and the
compensation (850 -> 950, version 4 -> 5), and a deposit of 100 to "B"
commits before the credit (500 -> 600, version 7 -> 8), which is what makes
the credit CAS fail.  Returns (final store, credit outcome, compensation
outcome). -/
def transferInterleaved : AccountStore × Option Err × Option Err :=
  let fromAccount := accSrc
  let toAccount := accDst
  let s0 : AccountStore := [accSrc, accDst]
  let debit := UpdateBalance s0 fromAccount.id
    (fromAccount.balance - 150) fromAccount.version
  let i1 := UpdateBalance debit.1 "B" 600 7
  let i2 := UpdateBalance i1.1 "A" 950 4
  let credit := UpdateBalance i2.1 toAccount.id
    (toAccount.balance + 150) toAccount.version
  let rollback := UpdateBalance credit.1 fromAccount.id
    fromAccount.balance (fromAccount.version + 1)
  (rollback.1, credit.2, rollback.2)

/-! ### Helper lemmas about the store primitives -/

/-- Every account's balance in the store is non-negative. -/
def NonnegBalances (s : AccountStore) : Prop := ∀ a ∈ s, 0 ≤ a.balance

instance (s : AccountStore) : Decidable (NonnegBalances s) :=
  List.decidableBAll _ s

/-- Total balance held in currency `c` across the store. -/
def currencySum (s : AccountStore) (c : String) : Int :=
  (s.map fun a => if a.currency = c then a.balance else 0).sum

lemma find?_pred_map {α : Type} (p : α → Bool) (s : List α) (g : α → α)
    (hg : ∀ a, p (g a) = p a) :
    (s.map g).find? p = (s.find? p).map g := by
  induction s with
  | nil => rfl
  | cons h t ih =>
    by_cases hp : p h
    · rw [List.map_cons, List.find?_cons_of_pos _ (by rw [hg]; exact hp),
        List.find?_cons_of_pos _ hp, Option.map_some']
    · rw [List.map_cons,
        List.find?_cons_of_neg _ (by rw [hg]; simpa using hp),
        List.find?_cons_of_neg _ (by simpa using hp), ih]

lemma GetByID_map (s : AccountStore) (id : String) (g : Account → Account)
    (hg : ∀ a, (g a).id = a.id) :
    GetByID (s.map g) id = (GetByID s id).map g := by
  unfold GetByID
  exact find?_pred_map _ s g (fun a => by rw [hg])

lemma UpdateBalance_fail (s : AccountStore) (id : String) (nb v : Int)
    (h : (UpdateBalance s id nb v).2 ≠ none) :
    (UpdateBalance s id nb v).1 = s := by
  unfold UpdateBalance at *
  rcases hf : s.find? (fun a => a.id = id) with _ | a
  · simp [hf]
  · rw [hf] at h ⊢
    by_cases hv : a.version = v
    · simp [hv] at h
    · simp [hv]

lemma UpdateBalance_succ_store (s : AccountStore) (id : String) (nb v : Int)
    (a : Account) (hfind : GetByID s id = some a) (hv : a.version = v) :
    (UpdateBalance s id nb v).1
      = s.map (fun b =>
          if b.id = id then { b with balance := nb, version := b.version + 1 }
          else b)
    ∧ (UpdateBalance s id nb v).2 = none := by
  unfold GetByID at hfind
  unfold UpdateBalance
  rw [hfind]
  simp [hv]

lemma UpdateBalance_ids (s : AccountStore) (id : String) (nb v : Int) :
    ((UpdateBalance s id nb v).1).map (fun a => a.id)
      = s.map (fun a => a.id) := by
  unfold UpdateBalance
  rcases hf : s.find? (fun a => a.id = id) with _ | a
  · simp [hf]
  · rw [hf]
    by_cases hv : a.version = v
    · simp only [hv, ne_eq, not_true_eq_false, if_false, List.map_map]
      apply List.map_congr_left
      intro b _
      by_cases hb : b.id = id <;> simp [hb]
    · simp [hv]

lemma UpdateBalance_nonneg (s : AccountStore) (id : String) (nb v : Int)
    (h : NonnegBalances s) (hnb : 0 ≤ nb) :
    NonnegBalances (UpdateBalance s id nb v).1 := by
  unfold UpdateBalance
  rcases hf : s.find? (fun a => a.id = id) with _ | a
  · rw [hf]; exact h
  · rw [hf]
    by_cases hv : a.version = v
    · simp only [hv, ne_eq, not_true_eq_false, if_false]
      intro b hb
      rcases List.mem_map.mp hb with ⟨b0, hb0, rfl⟩
      by_cases hid : b0.id = id
      · simpa [hid] using hnb
      · simpa [hid] using h b0 hb0
    · simp only [hv, ne_eq, not_false_eq_true, if_true]
      exact h

lemma currencySum_cons (a : Account) (t : AccountStore) (c : String) :
    currencySum (a :: t) c
      = (if a.currency = c then a.balance else 0) + currencySum t c := by
  simp [currencySum]

lemma currencySum_update (s : AccountStore) (id : String) (nb : Int)
    (c : String) (hnd : (s.map (fun a => a.id)).Nodup) (a : Account)
    (hfind : GetByID s id = some a) :
    currencySum
        (s.map fun b =>
          if b.id = id then { b with balance := nb, version := b.version + 1 }
          else b) c
      = currencySum s c + (if a.currency = c then nb - a.balance else 0) := by
  induction s with
  | nil => simp [GetByID] at hfind
  | cons h t ih =>
    simp only [List.map_cons, List.nodup_cons] at hnd
    unfold GetByID at hfind
    by_cases hid : h.id = id
    · rw [List.find?_cons_of_pos _ (by simpa using hid)] at hfind
      obtain rfl : h = a := by simpa using hfind
      have htid : ∀ b ∈ t, ¬b.id = id := by
        intro b hb
        rw [← hid]
        exact fun hcontra => hnd.1 (List.mem_map.mpr ⟨b, hb, hcontra⟩)
      have hmap : (t.map fun b =>
          if b.id = id then { b with balance := nb, version := b.version + 1 }
          else b) = t := by
        rw [List.map_congr_left (g := fun b => b) (fun b hb => by simp [htid b hb])]
        exact List.map_id _
      rw [List.map_cons, if_pos hid, currencySum_cons, currencySum_cons, hmap]
      by_cases hc : h.currency = c <;> simp only [hc, if_pos, if_neg, if_true,
        if_false, ite_true, ite_false] <;> ring
    · rw [List.find?_cons_of_neg _ (by simpa using hid)] at hfind
      rw [List.map_cons, if_neg hid, currencySum_cons, currencySum_cons,
        ih hnd.2 hfind]
      ring

lemma txGetByID_map (ts : TransactionStore) (id : String)
    (g : Transaction → Transaction) (hg : ∀ t, (g t).id = t.id) :
    txGetByID (ts.map g) id = (txGetByID ts id).map g := by
  unfold txGetByID
  exact find?_pred_map _ ts g (fun t => by rw [hg])

lemma txUpdateStatus_get (ts : TransactionStore) (id : String)
    (status : TransactionStatus) (msg : String) (t : Transaction)
    (hfind : txGetByID ts id = some t) :
    txGetByID (txUpdateStatus ts id status msg).1 id
      = some { t with status := status, errorMessage := msg } := by
  have hid : t.id = id := by
    have := List.find?_some hfind
    simpa using this
  unfold txUpdateStatus
  unfold txGetByID at hfind
  rw [hfind]
  simp only
  rw [txGetByID_map ts id _
    (fun u => by by_cases hu : u.id = id <;> simp [hu])]
  unfold txGetByID
  rw [hfind, Option.map_some']
  simp [hid]

lemma GetByID_mem (s : AccountStore) (id : String) (a : Account)
    (h : GetByID s id = some a) : a ∈ s ∧ a.id = id := by
  refine ⟨List.mem_of_find?_eq_some h, ?_⟩
  have := List.find?_some h
  simpa using this

lemma UpdateBalance_succ_get_self (s : AccountStore) (id : String)
    (nb v : Int) (a : Account) (hfind : GetByID s id = some a)
    (hv : a.version = v) :
    GetByID (UpdateBalance s id nb v).1 id
      = some { a with balance := nb, version := a.version + 1 } := by
  rw [(UpdateBalance_succ_store s id nb v a hfind hv).1,
    GetByID_map s id _ (fun b => by by_cases hb : b.id = id <;> simp [hb]),
    hfind, Option.map_some']
  simp [(GetByID_mem s id a hfind).2]

lemma UpdateBalance_get_other (s : AccountStore) (id : String)
    (nb v : Int) (id' : String) (hne : id' ≠ id) :
    GetByID (UpdateBalance s id nb v).1 id' = GetByID s id' := by
  unfold UpdateBalance
  rcases hf : s.find? (fun a => a.id = id) with _ | a
  · rw [hf]
  · rw [hf]
    by_cases hv : a.version = v
    · simp only [hv, ne_eq, not_true_eq_false, if_false]
      rw [GetByID_map s id' _ (fun b => by by_cases hb : b.id = id <;> simp [hb])]
      rcases hg : GetByID s id' with _ | b
      · rfl
      · rw [Option.map_some']
        have hb := (GetByID_mem s id' b hg).2
        have : ¬b.id = id := by rw [hb]; exact hne
        simp [this]
    · simp [hv]

lemma IsValid_amount_pos (r : TransactionRequest)
    (h : r.IsValid = none) : 0 < r.amount := by
  unfold TransactionRequest.IsValid at h
  by_cases ha : r.amount ≤ 0
  · simp [ha] at h
  · exact lt_of_not_le ha

lemma IsValid_transfer_shape (r : TransactionRequest)
    (h : r.IsValid = none) (hty : r.type = "transfer") :
    ∃ f t, r.fromAccountID = some f ∧ r.toAccountID = some t ∧ f ≠ t := by
  unfold TransactionRequest.IsValid at h
  rw [hty] at h
  by_cases ha : r.amount ≤ 0
  · simp [ha] at h
  rw [if_neg ha] at h
  by_cases hc : r.currency = ""
  · simp [hc] at h
  rw [if_neg hc] at h
  rcases hf : r.fromAccountID with _ | f <;> rcases ht : r.toAccountID with _ | t <;>
    rw [hf, ht] at h
  · simp at h
  · simp at h
  · simp at h
  · refine ⟨f, t, rfl, rfl, ?_⟩
    by_cases hft : f = t
    · simp [hft] at h
    · exact hft

/-! ### Per-operation preservation lemmas -/

lemma processorHandler_accounts (st : LedgerState) (r : TransactionRequest) :
    (processorHandler st r).1.accounts = (ProcessTransactionSync st r).1.accounts := by
  unfold processorHandler
  rcases h : (ProcessTransactionSync st r).2 with _ | e <;> simp [h]

lemma ProcessTransaction_accounts (st : LedgerState) (r : TransactionRequest)
    (freshID : String) (publishErr : Option String) :
    (ProcessTransaction st r freshID publishErr).1.accounts = st.accounts := by
  unfold ProcessTransaction
  rcases h : r.IsValid with _ | e
  · rcases publishErr with _ | m <;> simp
  · simp

lemma CancelTransaction_accounts (st : LedgerState) (id : String) :
    (CancelTransaction st id).1.accounts = st.accounts := by
  unfold CancelTransaction
  rcases h : txGetByID st.txns id with _ | t
  · simp
  · by_cases hp : t.status = TransactionStatus.pending <;> simp [hp]

lemma processDeposit_nonneg (st : LedgerState) (r : TransactionRequest)
    (hamt : 0 ≤ r.amount) (h : NonnegBalances st.accounts) :
    NonnegBalances (processDeposit st r).1.accounts := by
  unfold processDeposit
  split
  · exact h
  split
  · exact h
  rename_i account hg
  split
  · exact h
  split
  · exact h
  have hbal : 0 ≤ account.balance := h account (GetByID_mem _ _ _ hg).1
  dsimp only
  split
  · exact UpdateBalance_nonneg _ _ _ _ h (by omega)
  · exact UpdateBalance_nonneg _ _ _ _ h (by omega)

lemma processWithdrawal_nonneg (st : LedgerState) (r : TransactionRequest)
    (h : NonnegBalances st.accounts) :
    NonnegBalances (processWithdrawal st r).1.accounts := by
  unfold processWithdrawal
  split
  · exact h
  split
  · exact h
  rename_i account hg
  split
  · exact h
  split
  · exact h
  split
  · exact h
  rename_i hfunds
  dsimp only
  split
  · exact UpdateBalance_nonneg _ _ _ _ h (by omega)
  · exact UpdateBalance_nonneg _ _ _ _ h (by omega)

lemma processTransfer_nonneg (st : LedgerState) (r : TransactionRequest)
    (hamt : 0 ≤ r.amount) (h : NonnegBalances st.accounts) :
    NonnegBalances (processTransfer st r).1.accounts := by
  unfold processTransfer
  split
  swap
  · exact h
  split
  · exact h
  rename_i fromAccount hgf
  split
  · exact h
  rename_i toAccount hgt
  split
  · exact h
  split
  · exact h
  split
  · exact h
  rename_i hfunds
  have hfb : 0 ≤ fromAccount.balance := h fromAccount (GetByID_mem _ _ _ hgf).1
  have htb : 0 ≤ toAccount.balance := h toAccount (GetByID_mem _ _ _ hgt).1
  have hnn1 : NonnegBalances
      (UpdateBalance st.accounts fromAccount.id
        (fromAccount.balance - r.amount) fromAccount.version).1 :=
    UpdateBalance_nonneg _ _ _ _ h (by omega)
  have hnn2 : NonnegBalances
      (UpdateBalance (UpdateBalance st.accounts fromAccount.id
          (fromAccount.balance - r.amount) fromAccount.version).1 toAccount.id
        (toAccount.balance + r.amount) toAccount.version).1 :=
    UpdateBalance_nonneg _ _ _ _ hnn1 (by omega)
  dsimp only
  split
  · exact hnn1
  split
  · exact UpdateBalance_nonneg _ _ _ _ hnn2 hfb
  · exact hnn2

lemma ProcessTransactionSync_nonneg (st : LedgerState) (r : TransactionRequest)
    (h : NonnegBalances st.accounts) :
    NonnegBalances (ProcessTransactionSync st r).1.accounts := by
  unfold ProcessTransactionSync
  split
  · exact h
  rename_i hv
  have hamt : 0 ≤ r.amount := le_of_lt (IsValid_amount_pos r hv)
  split
  · exact processDeposit_nonneg st r hamt h
  · exact processWithdrawal_nonneg st r h
  · exact processTransfer_nonneg st r hamt h
  · exact h

lemma processorHandler_nonneg (st : LedgerState) (r : TransactionRequest)
    (h : NonnegBalances st.accounts) :
    NonnegBalances (processorHandler st r).1.accounts := by
  rw [processorHandler_accounts]
  exact ProcessTransactionSync_nonneg st r h

lemma CreateAccount_nonneg (st : LedgerState) (id userID : String)
    (initialBalance : Int) (currency : String)
    (h : NonnegBalances st.accounts) :
    NonnegBalances (CreateAccount st id userID initialBalance currency).1.accounts := by
  unfold CreateAccount
  split
  · exact h
  split
  · exact h
  split
  · exact h
  rename_i hneg _ _
  intro a ha
  unfold storePut at ha
  dsimp only at ha
  split at ha
  · rcases List.mem_map.mp ha with ⟨b, hb, rfl⟩
    split
    · simpa using (by omega : (0:Int) ≤ initialBalance)
    · exact h b hb
  · rcases List.mem_append.mp ha with hb | hb
    · exact h a hb
    · rw [List.mem_singleton] at hb
      subst hb
      simpa using (by omega : (0:Int) ≤ initialBalance)

/-! ### Reachable states (claim C4) -/

/-- One externally triggered operation of the system: an account creation
(`AccountUseCase.CreateAccount`), a synchronous acceptance
(`TransactionUseCase.ProcessTransaction`, with the uuid and the publish
outcome as oracle inputs), the processor handling one delivered message
(the `StartTransactionProcessor` handler), or a cancellation
(`TransactionUseCase.CancelTransaction`). -/
inductive Step where
  | create (id userID : String) (initialBalance : Int) (currency : String)
  | accept (r : TransactionRequest) (freshID : String) (publishErr : Option String)
  | handle (r : TransactionRequest)
  | cancel (id : String)
  deriving DecidableEq, Repr

/-- Effect of one step on the combined state. -/
def applyStep (st : LedgerState) : Step → LedgerState
  | .create id userID b c => (CreateAccount st id userID b c).1
  | .accept r freshID publishErr => (ProcessTransaction st r freshID publishErr).1
  | .handle r => (processorHandler st r).1
  | .cancel id => (CancelTransaction st id).1

/-- State after a sequence of steps. -/
def runSteps (st : LedgerState) (steps : List Step) : LedgerState :=
  steps.foldl applyStep st

lemma applyStep_nonneg (st : LedgerState) (s : Step)
    (h : NonnegBalances st.accounts) :
    NonnegBalances (applyStep st s).accounts := by
  cases s with
  | create id userID b c => exact CreateAccount_nonneg st id userID b c h
  | accept r freshID publishErr =>
    rw [applyStep, ProcessTransaction_accounts]
    exact h
  | handle r => exact processorHandler_nonneg st r h
  | cancel id =>
    rw [applyStep, CancelTransaction_accounts]
    exact h

lemma processDeposit_ids (st : LedgerState) (r : TransactionRequest) :
    ((processDeposit st r).1.accounts).map (fun a => a.id)
      = st.accounts.map (fun a => a.id) := by
  unfold processDeposit
  split
  · rfl
  split
  · rfl
  split
  · rfl
  split
  · rfl
  dsimp only
  split
  · exact UpdateBalance_ids _ _ _ _
  · exact UpdateBalance_ids _ _ _ _

lemma processWithdrawal_ids (st : LedgerState) (r : TransactionRequest) :
    ((processWithdrawal st r).1.accounts).map (fun a => a.id)
      = st.accounts.map (fun a => a.id) := by
  unfold processWithdrawal
  split
  · rfl
  split
  · rfl
  split
  · rfl
  split
  · rfl
  split
  · rfl
  dsimp only
  split
  · exact UpdateBalance_ids _ _ _ _
  · exact UpdateBalance_ids _ _ _ _

lemma processTransfer_ids (st : LedgerState) (r : TransactionRequest) :
    ((processTransfer st r).1.accounts).map (fun a => a.id)
      = st.accounts.map (fun a => a.id) := by
  unfold processTransfer
  split
  swap
  · rfl
  split
  · rfl
  split
  · rfl
  split
  · rfl
  split
  · rfl
  split
  · rfl
  dsimp only
  split
  · exact UpdateBalance_ids _ _ _ _
  split
  · rw [UpdateBalance_ids, UpdateBalance_ids, UpdateBalance_ids]
  · rw [UpdateBalance_ids, UpdateBalance_ids]

lemma ProcessTransactionSync_ids (st : LedgerState) (r : TransactionRequest) :
    ((ProcessTransactionSync st r).1.accounts).map (fun a => a.id)
      = st.accounts.map (fun a => a.id) := by
  unfold ProcessTransactionSync
  split
  · rfl
  split
  · exact processDeposit_ids st r
  · exact processWithdrawal_ids st r
  · exact processTransfer_ids st r
  · rfl

lemma processorHandler_ids (st : LedgerState) (r : TransactionRequest) :
    ((processorHandler st r).1.accounts).map (fun a => a.id)
      = st.accounts.map (fun a => a.id) := by
  rw [processorHandler_accounts]
  exact ProcessTransactionSync_ids st r

lemma UpdateBalance_none_inv (s : AccountStore) (id : String) (nb v : Int)
    (h : (UpdateBalance s id nb v).2 = none) :
    ∃ a, GetByID s id = some a ∧ a.version = v := by
  unfold UpdateBalance at h
  unfold GetByID
  rcases hf : s.find? (fun a => a.id = id) with _ | a
  · rw [hf] at h; simp at h
  · rw [hf] at h
    by_cases hv : a.version = v
    · exact ⟨a, hf, hv⟩
    · simp [hv] at h

lemma UpdateBalance_currencySum_succ (s : AccountStore) (id : String)
    (nb v : Int) (a : Account) (c : String)
    (hnd : (s.map (fun b => b.id)).Nodup)
    (hfind : GetByID s id = some a) (hv : a.version = v) :
    currencySum (UpdateBalance s id nb v).1 c
      = currencySum s c + (if a.currency = c then nb - a.balance else 0) := by
  rw [(UpdateBalance_succ_store s id nb v a hfind hv).1]
  exact currencySum_update s id nb c hnd a hfind

lemma processTransfer_currencySum (st : LedgerState) (r : TransactionRequest)
    (c : String) (hnd : (st.accounts.map (fun a => a.id)).Nodup)
    (hne : ∀ f t, r.fromAccountID = some f → r.toAccountID = some t → f ≠ t) :
    currencySum (processTransfer st r).1.accounts c
      = currencySum st.accounts c := by
  unfold processTransfer
  split
  swap
  · rfl
  rename_i fromID toID heqf heqt
  have hft : fromID ≠ toID := hne fromID toID heqf heqt
  split
  · rfl
  rename_i fromAccount hgf
  split
  · rfl
  rename_i toAccount hgt
  split
  · rfl
  split
  · rfl
  rename_i hcur
  split
  · rfl
  have hfid : fromAccount.id = fromID := (GetByID_mem _ _ _ hgf).2
  have htid : toAccount.id = toID := (GetByID_mem _ _ _ hgt).2
  have hidne : toAccount.id ≠ fromAccount.id := by
    rw [hfid, htid]
    exact fun hcontra => hft hcontra.symm
  have hcurf : fromAccount.currency = r.currency ∧
      toAccount.currency = r.currency := by
    push_neg at hcur
    exact hcur
  dsimp only
  split
  · rename_i e hdeb
    dsimp only
    rw [UpdateBalance_fail _ _ _ _ (by simp [hdeb])]
  rename_i hdeb
  obtain ⟨a1, hfind1, hv1⟩ := UpdateBalance_none_inv _ _ _ _ hdeb
  have ha1 : a1 = fromAccount := by
    rw [hfid, hgf] at hfind1
    exact (Option.some_inj.mp hfind1).symm
  rw [ha1] at hfind1 hv1
  have hndd : (((UpdateBalance st.accounts fromAccount.id
      (fromAccount.balance - r.amount) fromAccount.version).1).map
        (fun a => a.id)).Nodup := by
    rw [UpdateBalance_ids]
    exact hnd
  have hsum1 : currencySum (UpdateBalance st.accounts fromAccount.id
      (fromAccount.balance - r.amount) fromAccount.version).1 c
      = currencySum st.accounts c
        + (if fromAccount.currency = c then -r.amount else 0) := by
    rw [UpdateBalance_currencySum_succ st.accounts fromAccount.id _ _
      fromAccount c hnd hfind1 hv1]
    by_cases hc : fromAccount.currency = c <;> simp [hc]
  have hgetd : GetByID (UpdateBalance st.accounts fromAccount.id
      (fromAccount.balance - r.amount) fromAccount.version).1 toAccount.id
      = some toAccount := by
    rw [UpdateBalance_get_other _ _ _ _ _ hidne, htid]
    exact hgt
  split
  · -- credit failed: the rollback CAS at part_005 line 211
    rename_i e hcred
    dsimp only
    have hcr1 : (UpdateBalance (UpdateBalance st.accounts fromAccount.id
        (fromAccount.balance - r.amount) fromAccount.version).1 toAccount.id
        (toAccount.balance + r.amount) toAccount.version).1
        = (UpdateBalance st.accounts fromAccount.id
            (fromAccount.balance - r.amount) fromAccount.version).1 :=
      UpdateBalance_fail _ _ _ _ (by simp [hcred])
    rw [hcr1]
    have hgetd2 : GetByID (UpdateBalance st.accounts fromAccount.id
        (fromAccount.balance - r.amount) fromAccount.version).1 fromAccount.id
        = some { fromAccount with
                   balance := fromAccount.balance - r.amount,
                   version := fromAccount.version + 1 } :=
      UpdateBalance_succ_get_self st.accounts fromAccount.id _ _
        fromAccount (by rw [hfid]; exact hgf) hv1
    rw [UpdateBalance_currencySum_succ _ fromAccount.id _ _ _ c hndd hgetd2 rfl]
    rw [hsum1]
    by_cases hc : fromAccount.currency = c <;> simp [hc]
  · -- full success: debit then credit
    rename_i hcred
    dsimp only
    obtain ⟨a2, hfind2, hv2⟩ := UpdateBalance_none_inv _ _ _ _ hcred
    have ha2 : a2 = toAccount := by
      rw [hgetd] at hfind2
      exact (Option.some_inj.mp hfind2).symm
    rw [ha2] at hfind2 hv2
    rw [UpdateBalance_currencySum_succ _ toAccount.id _ _ toAccount c hndd
      hfind2 hv2]
    rw [hsum1, hcurf.1, hcurf.2]
    by_cases hc : r.currency = c <;> simp [hc]

lemma ProcessTransactionSync_transfer_eq (st : LedgerState)
    (r : TransactionRequest) (hv : r.IsValid = none)
    (hty : r.type = "transfer") :
    ProcessTransactionSync st r = processTransfer st r := by
  unfold ProcessTransactionSync
  rw [hv, hty]
  rfl

lemma ProcessTransactionSync_currencySum (st : LedgerState)
    (r : TransactionRequest) (c : String)
    (hnd : (st.accounts.map (fun a => a.id)).Nodup)
    (hty : r.type = "transfer") :
    currencySum (ProcessTransactionSync st r).1.accounts c
      = currencySum st.accounts c := by
  rcases hv : r.IsValid with _ | e
  · rw [ProcessTransactionSync_transfer_eq st r hv hty]
    obtain ⟨f, t, hf, ht, hft⟩ := IsValid_transfer_shape r hv hty
    refine processTransfer_currencySum st r c hnd ?_
    intro f' t' hf' ht'
    rw [hf] at hf'
    rw [ht] at ht'
    rw [← Option.some_inj.mp hf', ← Option.some_inj.mp ht']
    exact hft
  · unfold ProcessTransactionSync
    rw [hv]

lemma processorHandler_transfer_currencySum (st : LedgerState)
    (r : TransactionRequest) (c : String)
    (hnd : (st.accounts.map (fun a => a.id)).Nodup)
    (hty : r.type = "transfer") :
    currencySum (processorHandler st r).1.accounts c
      = currencySum st.accounts c := by
  rw [processorHandler_accounts]
  exact ProcessTransactionSync_currencySum st r c hnd hty

lemma foldHandler_transfer_currencySum (rs : List TransactionRequest)
    (st : LedgerState) (c : String)
    (hall : ∀ r ∈ rs, r.type = "transfer")
    (hnd : (st.accounts.map (fun a => a.id)).Nodup) :
    currencySum ((rs.foldl (fun s r => (processorHandler s r).1) st).accounts) c
      = currencySum st.accounts c := by
  induction rs generalizing st with
  | nil => rfl
  | cons r rest ih =>
    rw [List.foldl_cons]
    have hnd' : (((processorHandler st r).1.accounts).map (fun a => a.id)).Nodup := by
      rw [processorHandler_ids]
      exact hnd
    rw [ih (processorHandler st r).1 (fun q hq => hall q (List.mem_cons_of_mem r hq)) hnd',
      processorHandler_transfer_currencySum st r c hnd (hall r (List.mem_cons_self r rest))]

lemma processTransfer_delta (st : LedgerState) (r : TransactionRequest)
    (f t : String) (fa ta : Account)
    (hf : r.fromAccountID = some f) (ht : r.toAccountID = some t)
    (hft : f ≠ t)
    (hgf : GetByID st.accounts f = some fa) (hgt : GetByID st.accounts t = some ta)
    (out : LedgerState × Option Err) (hout : processTransfer st r = out)
    (hsucc : out.2 = none) :
    GetByID out.1.accounts f
      = some { fa with balance := fa.balance - r.amount, version := fa.version + 1 }
    ∧ GetByID out.1.accounts t
      = some { ta with balance := ta.balance + r.amount, version := ta.version + 1 } := by
  unfold processTransfer at hout
  split at hout
  swap
  · rw [← hout] at hsucc; simp at hsucc
  rename_i fromID toID heqf heqt
  rw [hf] at heqf
  rw [ht] at heqt
  obtain rfl : f = fromID := Option.some_inj.mp heqf
  obtain rfl : t = toID := Option.some_inj.mp heqt
  split at hout
  · rw [← hout] at hsucc; simp at hsucc
  rename_i fromAccount hgf'
  split at hout
  · rw [← hout] at hsucc; simp at hsucc
  rename_i toAccount hgt'
  obtain rfl : fa = fromAccount := by
    rw [hgf] at hgf'
    exact Option.some_inj.mp hgf'
  obtain rfl : ta = toAccount := by
    rw [hgt] at hgt'
    exact Option.some_inj.mp hgt'
  split at hout
  · rw [← hout] at hsucc; simp at hsucc
  split at hout
  · rw [← hout] at hsucc; simp at hsucc
  split at hout
  · rw [← hout] at hsucc; simp at hsucc
  dsimp only at hout
  have hfid : fa.id = f := (GetByID_mem _ _ _ hgf).2
  have htid : ta.id = t := (GetByID_mem _ _ _ hgt).2
  split at hout
  · rw [← hout] at hsucc; simp at hsucc
  rename_i hdeb
  obtain ⟨a1, hfind1, hv1⟩ := UpdateBalance_none_inv _ _ _ _ hdeb
  have ha1 : a1 = fa := by
    rw [hfid, hgf] at hfind1
    exact (Option.some_inj.mp hfind1).symm
  rw [ha1] at hfind1 hv1
  have hdget1 : GetByID (UpdateBalance st.accounts fa.id
      (fa.balance - r.amount) fa.version).1 fa.id
      = some { fa with balance := fa.balance - r.amount, version := fa.version + 1 } :=
    UpdateBalance_succ_get_self st.accounts fa.id _ _ fa hfind1 hv1
  have hdget2 : GetByID (UpdateBalance st.accounts fa.id
      (fa.balance - r.amount) fa.version).1 ta.id = some ta := by
    rw [UpdateBalance_get_other _ _ _ _ _ (by
      rw [hfid, htid]; exact fun hcontra => hft hcontra.symm), htid]
    exact hgt
  split at hout
  · rw [← hout] at hsucc; simp at hsucc
  rename_i hcred
  obtain ⟨a2, hfind2, hv2⟩ := UpdateBalance_none_inv _ _ _ _ hcred
  have ha2 : a2 = ta := by
    rw [hdget2] at hfind2
    exact (Option.some_inj.mp hfind2).symm
  rw [ha2] at hfind2 hv2
  rw [← hout]
  dsimp only
  constructor
  · rw [← hfid,
      UpdateBalance_get_other _ _ _ _ _ (by
        rw [hfid, htid]; exact fun hcontra => hft hcontra), hfid]
    rw [hfid] at hdget1
    exact hdget1
  · rw [← htid,
      UpdateBalance_succ_get_self _ ta.id _ _ ta hfind2 hv2]

lemma processWithdrawal_insufficient_eq (st : LedgerState)
    (r : TransactionRequest) (fromID : String) (a : Account)
    (hfrom : r.fromAccountID = some fromID)
    (hacct : GetByID st.accounts fromID = some a)
    (hactive : a.status = "active") (hcurm : a.currency = r.currency)
    (hbal : a.balance < r.amount) :
    processWithdrawal st r = (st, some Err.insufficientFunds) := by
  unfold processWithdrawal
  rw [hfrom]
  dsimp only
  rw [hacct]
  dsimp only
  rw [if_neg (by simp [hactive]), if_neg (by simp [hcurm]), if_pos hbal]

lemma ProcessTransactionSync_insufficient_eq (st : LedgerState)
    (r : TransactionRequest) (fromID : String) (a : Account)
    (hty : r.type = "withdrawal") (hfrom : r.fromAccountID = some fromID)
    (hamt : 0 < r.amount) (hcur : r.currency ≠ "")
    (hacct : GetByID st.accounts fromID = some a)
    (hactive : a.status = "active") (hcurm : a.currency = r.currency)
    (hbal : a.balance < r.amount) :
    ProcessTransactionSync st r = (st, some Err.insufficientFunds) := by
  have hv : r.IsValid = none := by
    unfold TransactionRequest.IsValid
    rw [hty]
    rw [if_neg (by omega), if_neg hcur]
    simp [hfrom]
  unfold ProcessTransactionSync
  rw [hv, hty]
  dsimp only
  exact processWithdrawal_insufficient_eq st r fromID a hfrom hacct hactive
    hcurm hbal

lemma processorHandler_insufficient_eq (st : LedgerState)
    (r : TransactionRequest) (fromID : String) (a : Account)
    (hty : r.type = "withdrawal") (hfrom : r.fromAccountID = some fromID)
    (hamt : 0 < r.amount) (hcur : r.currency ≠ "")
    (hacct : GetByID st.accounts fromID = some a)
    (hactive : a.status = "active") (hcurm : a.currency = r.currency)
    (hbal : a.balance < r.amount) :
    processorHandler st r
      = ({ accounts := st.accounts,
           txns := (txUpdateStatus st.txns r.id TransactionStatus.failed
             "insufficient funds").1 },
         some Err.insufficientFunds) := by
  unfold processorHandler
  rw [ProcessTransactionSync_insufficient_eq st r fromID a hty hfrom hamt hcur
    hacct hactive hcurm hbal]
  rfl

lemma find?_append_none {α : Type} (p : α → Bool) (l1 l2 : List α)
    (h : l1.find? p = none) : (l1 ++ l2).find? p = l2.find? p := by
  induction l1 with
  | nil => rfl
  | cons a tl ih =>
    rw [List.find?_eq_none] at h
    rw [List.cons_append,
      List.find?_cons_of_neg _ (h a (List.mem_cons_self a tl))]
    exact ih (List.find?_eq_none.mpr fun x hx => h x (List.mem_cons_of_mem a hx))

lemma txCreate_get (ts : TransactionStore) (t : Transaction) :
    txGetByID (txCreate ts t) t.id = some t := by
  unfold txCreate txGetByID
  split
  · rename_i hany
    rw [find?_pred_map (fun u => decide (u.id = t.id)) ts
      (fun u => if u.id = t.id then t else u)
      (fun u => by by_cases hu : u.id = t.id <;> simp [hu])]
    rcases hf : ts.find? (fun u => decide (u.id = t.id)) with _ | u0
    · rw [List.find?_eq_none] at hf
      rw [List.any_eq_true] at hany
      obtain ⟨u, hu, hpu⟩ := hany
      exact absurd hpu (by simpa using hf u hu)
    · rw [hf, Option.map_some']
      have hid : u0.id = t.id := by simpa using List.find?_some hf
      simp [hid]
  · rw [find?_append_none _ ts _ (List.find?_eq_none.mpr ?_)]
    · rw [List.find?_cons_of_pos _ (by simp)]
    · rename_i hany
      intro u hu
      simp only [decide_eq_true_eq]
      intro hcontra
      exact hany (List.any_eq_true.mpr ⟨u, hu, by simpa using hcontra⟩)

lemma txCreate_updateStatus_get (ts : TransactionStore) (t : Transaction)
    (status : TransactionStatus) (msg : String) :
    txGetByID (txUpdateStatus (txCreate ts t) t.id status msg).1 t.id
      = some { t with status := status, errorMessage := msg } :=
  txUpdateStatus_get _ _ _ _ _ (txCreate_get ts t)

/-! ### Claim theorems -/

/-- C1: for an account present in the store, `UpdateBalance(id, newBalance,
expectedVersion)` succeeds — setting the balance to `newBalance` and
incrementing the version by exactly 1 — precisely when the stored version
equals `expectedVersion`; when the stored version differs the store is left
completely unchanged and the call fails with `ConcurrentUpdate`; other
accounts are never touched. -/
theorem updateBalance_cas_contract (s : AccountStore) (id : String)
    (newBalance expectedVersion : Int) (a : Account)
    (hfind : GetByID s id = some a) :
    ((UpdateBalance s id newBalance expectedVersion).2 = none
        ↔ a.version = expectedVersion)
    ∧ (a.version = expectedVersion →
        GetByID (UpdateBalance s id newBalance expectedVersion).1 id
          = some { a with balance := newBalance, version := a.version + 1 }
        ∧ ∀ id2, id2 ≠ id →
            GetByID (UpdateBalance s id newBalance expectedVersion).1 id2
              = GetByID s id2)
    ∧ (a.version ≠ expectedVersion →
        (UpdateBalance s id newBalance expectedVersion).1 = s
        ∧ (UpdateBalance s id newBalance expectedVersion).2
            = some Err.concurrentUpdate) := by
  refine ⟨⟨fun hnone => ?_,
      fun hv => (UpdateBalance_succ_store s id _ _ a hfind hv).2⟩,
    fun hv => ⟨UpdateBalance_succ_get_self s id _ _ a hfind hv,
      fun id2 hne => UpdateBalance_get_other s id _ _ id2 hne⟩,
    fun hv => ?_⟩
  · obtain ⟨a2, hfind2, hv2⟩ := UpdateBalance_none_inv _ _ _ _ hnone
    rw [hfind] at hfind2
    rw [Option.some_inj.mp hfind2]
    exact hv2
  · unfold GetByID at hfind
    unfold UpdateBalance
    rw [hfind]
    simp [hv]

/-- Witness for C1 at the concrete store `[accA, accB]` ("A" has version 3):
the hypothesis holds and the contract is instantiated at newBalance 700 and
expectedVersion 3. -/
theorem updateBalance_cas_contract_witness :
    GetByID [accA, accB] "A" = some accA
    ∧ (((UpdateBalance [accA, accB] "A" 700 3).2 = none ↔ accA.version = 3)
      ∧ (accA.version = 3 →
          GetByID (UpdateBalance [accA, accB] "A" 700 3).1 "A"
            = some { accA with balance := 700, version := accA.version + 1 }
          ∧ ∀ id2, id2 ≠ "A" →
              GetByID (UpdateBalance [accA, accB] "A" 700 3).1 id2
                = GetByID [accA, accB] id2)
      ∧ (accA.version ≠ 3 →
          (UpdateBalance [accA, accB] "A" 700 3).1 = [accA, accB]
          ∧ (UpdateBalance [accA, accB] "A" 700 3).2
              = some Err.concurrentUpdate)) :=
  ⟨by decide, updateBalance_cas_contract [accA, accB] "A" 700 3 accA (by decide)⟩

/-- C2 (refuted by the code): the handler installed by
`StartTransactionProcessor` performs no re-read of the journal status.
Redelivering the message of transaction "T1", whose journal record is
already `completed`, applies the deposit a second time: account "A" moves
from balance 500 to 600, and the handler still returns success (the message
is acknowledged).  The claim demands that every account balance be left
unchanged. -/
theorem redelivered_completed_reapplies :
    (txGetByID stRedeliver.txns "T1").map (fun t => t.status)
        = some TransactionStatus.completed
    ∧ (processorHandler stRedeliver reqDep).2 = none
    ∧ (GetByID stRedeliver.accounts "A").map (fun a => a.balance) = some 500
    ∧ (GetByID (processorHandler stRedeliver reqDep).1.accounts "A").map
        (fun a => a.balance) = some 600 := by
  decide

/-- C3 (refuted by the code): under the interleaving recorded in
`transferInterleaved` — a transfer of 150 from "A" (1000 USD, version 3)
whose destination credit CAS fails because of a concurrent commit — the
compensation of part_005 line 211 re-applies the stale pre-debit balance
1000 at the guessed version 4 instead of re-reading.  A concurrent deposit
has meanwhile moved "A" to (950, version 5), so the compensating CAS fails
with `ConcurrentUpdate`, its outcome is discarded, and "A" is left at 950:
the debited 150 is never credited back (a fresh-read compensation would
have produced 1100). -/
theorem transfer_compensation_lost :
    transferInterleaved.2.1 = some Err.concurrentUpdate
    ∧ transferInterleaved.2.2 = some Err.concurrentUpdate
    ∧ (GetByID transferInterleaved.1 "A").map (fun a => a.balance) = some 950
    ∧ (GetByID transferInterleaved.1 "A").map (fun a => a.version) = some 5 := by
  decide

/-- C4: from any initial state whose balances are all non-negative, any
sequence of system steps — account creations, acceptances, processed
deposit/withdrawal/transfer messages (including failed and compensated
ones) and cancellations — leaves every account balance non-negative. -/
theorem reachable_balances_nonneg (st0 : LedgerState) (steps : List Step)
    (h0 : NonnegBalances st0.accounts) :
    NonnegBalances (runSteps st0 steps).accounts := by
  induction steps generalizing st0 with
  | nil => exact h0
  | cons s rest ih => exact ih _ (applyStep_nonneg st0 s h0)

/-- Witness for C4: a concrete run from the empty store — create "A" with
500 USD, accept and process the deposit "T1", process the withdrawal "T3",
cancel "T1" — ends with all balances non-negative. -/
theorem reachable_balances_nonneg_witness :
    NonnegBalances ({ accounts := [], txns := [] } : LedgerState).accounts
    ∧ NonnegBalances (runSteps { accounts := [], txns := [] }
        [Step.create "A" "u1" 500 "USD", Step.accept reqDep "X" none,
          Step.handle reqDep, Step.handle reqWd, Step.cancel "T1"]).accounts :=
  ⟨by decide, reachable_balances_nonneg _ _ (by decide)⟩

/-- C5: processing any sequence of transfer messages leaves the total
balance of every currency unchanged (each transfer in the sequential model
either completes fully or is fully compensated before the handler returns);
moreover a successful transfer of amount `a` moves the source account from
balance `b` to `b - a` (version +1) and the destination from `b2` to
`b2 + a` (version +1). -/
theorem transfer_conservation :
    (∀ (st : LedgerState) (c : String) (rs : List TransactionRequest),
        (∀ r ∈ rs, r.type = "transfer") →
        ((st.accounts.map (fun a => a.id)).Nodup) →
        currencySum ((rs.foldl (fun s q => (processorHandler s q).1) st).accounts) c
          = currencySum st.accounts c)
    ∧ (∀ (st : LedgerState) (r : TransactionRequest) (f t : String)
        (fa ta : Account),
        r.type = "transfer" →
        r.fromAccountID = some f → r.toAccountID = some t →
        GetByID st.accounts f = some fa → GetByID st.accounts t = some ta →
        (ProcessTransactionSync st r).2 = none →
        GetByID (ProcessTransactionSync st r).1.accounts f
          = some { fa with
                   balance := fa.balance - r.amount,
                   version := fa.version + 1 }
        ∧ GetByID (ProcessTransactionSync st r).1.accounts t
          = some { ta with
                   balance := ta.balance + r.amount,
                   version := ta.version + 1 }) := by
  constructor
  · exact fun st c rs hall hnd => foldHandler_transfer_currencySum rs st c hall hnd
  · intro st r f t fa ta hty hf ht hgf hgt hsucc
    rcases hv : r.IsValid with _ | e
    swap
    · exfalso
      unfold ProcessTransactionSync at hsucc
      rw [hv] at hsucc
      simp at hsucc
    rw [ProcessTransactionSync_transfer_eq st r hv hty] at hsucc ⊢
    obtain ⟨f2, t2, hf2, ht2, hft2⟩ := IsValid_transfer_shape r hv hty
    have hft : f ≠ t := by
      rw [hf] at hf2
      rw [ht] at ht2
      rw [Option.some_inj.mp hf2, Option.some_inj.mp ht2]
      exact hft2
    exact processTransfer_delta st r f t fa ta hf ht hft hgf hgt _ rfl hsucc

/-- Witness for C5: the single transfer "T4" of 150 USD from "A" to "B"
preserves the USD total of the store `stTransfer`. -/
theorem transfer_conservation_witness :
    (∀ r ∈ [reqTr], r.type = "transfer")
    ∧ ((stTransfer.accounts.map (fun a => a.id)).Nodup)
    ∧ currencySum (([reqTr].foldl (fun s q => (processorHandler s q).1)
        stTransfer).accounts) "USD"
      = currencySum stTransfer.accounts "USD" :=
  ⟨by decide, by decide,
    transfer_conservation.1 stTransfer "USD" [reqTr] (by decide) (by decide)⟩

/-- C7 (refuted by the code): `UpdateStatus` overwrites the status
unconditionally and the processor never re-reads the journal before
processing, so a terminal status does transition: transaction "T2" is
`cancelled` (terminal), yet handling its still-queued message marks it
`completed`. -/
theorem terminal_status_overwritten :
    (txGetByID stCancelled.txns "T2").map (fun t => t.status)
        = some TransactionStatus.cancelled
    ∧ (txGetByID (processorHandler stCancelled reqDep2).1.txns "T2").map
        (fun t => t.status) = some TransactionStatus.completed := by
  decide

/-- C8: the source validation `IsValid` checks exactly the spec's rules in
exactly the spec's precedence order: amount, then currency, then the
per-type account-presence rules, `SameAccount` for transfers, and
`InvalidTransactionType` for any other type value. -/
theorem isValid_matches_spec_order :
    ∀ r : TransactionRequest, r.IsValid = validateSpec r := by
  rintro ⟨id, ty, fa, ta, am, cur⟩
  unfold TransactionRequest.IsValid validateSpec
  simp only
  by_cases h0 : am ≤ 0
  · simp [h0]
  by_cases h1 : cur = ""
  · simp [h0, h1]
  by_cases hd : ty = "deposit"
  · subst hd
    rcases ta with _ | t <;> simp [h0, h1]
  by_cases hw : ty = "withdrawal"
  · subst hw
    rcases fa with _ | f <;> simp [h0, h1]
  by_cases ht : ty = "transfer"
  · subst ht
    rcases fa with _ | f <;> rcases ta with _ | t <;> simp [h0, h1]
  · simp [h0, h1, hd, hw, ht]

/-- C6: a withdrawal against an active, currency-matching account whose
balance is strictly below the requested amount fails with
`InsufficientFunds`: the handler reports the error, the journal record is
marked `failed` with that error message, and the account store — balance
and version included — is completely unchanged. -/
theorem withdrawal_insufficient_funds (st : LedgerState)
    (r : TransactionRequest) (fromID : String) (a : Account) (t : Transaction)
    (hty : r.type = "withdrawal") (hfrom : r.fromAccountID = some fromID)
    (hamt : 0 < r.amount) (hcur : r.currency ≠ "")
    (hacct : GetByID st.accounts fromID = some a)
    (hactive : a.status = "active") (hcurm : a.currency = r.currency)
    (hbal : a.balance < r.amount)
    (htxn : txGetByID st.txns r.id = some t) :
    (processorHandler st r).2 = some Err.insufficientFunds
    ∧ (processorHandler st r).1.accounts = st.accounts
    ∧ (txGetByID (processorHandler st r).1.txns r.id).map
        (fun u => (u.status, u.errorMessage))
      = some (TransactionStatus.failed, "insufficient funds") := by
  rw [processorHandler_insufficient_eq st r fromID a hty hfrom hamt hcur hacct
    hactive hcurm hbal]
  refine ⟨rfl, rfl, ?_⟩
  rw [txUpdateStatus_get st.txns r.id _ _ t htxn]
  rfl

/-- Witness for C6: withdrawing 600 from "A" (balance 500) fails with
`InsufficientFunds`, marks "T3" failed, and leaves the store unchanged. -/
theorem withdrawal_insufficient_funds_witness :
    reqWd.type = "withdrawal"
    ∧ reqWd.fromAccountID = some "A"
    ∧ 0 < reqWd.amount
    ∧ reqWd.currency ≠ ""
    ∧ GetByID stInsufficient.accounts "A" = some accA
    ∧ accA.status = "active"
    ∧ accA.currency = reqWd.currency
    ∧ accA.balance < reqWd.amount
    ∧ txGetByID stInsufficient.txns reqWd.id = some txPend
    ∧ ((processorHandler stInsufficient reqWd).2 = some Err.insufficientFunds
      ∧ (processorHandler stInsufficient reqWd).1.accounts
          = stInsufficient.accounts
      ∧ (txGetByID (processorHandler stInsufficient reqWd).1.txns reqWd.id).map
          (fun u => (u.status, u.errorMessage))
        = some (TransactionStatus.failed, "insufficient funds")) :=
  ⟨by decide, by decide, by decide, by decide, by decide, by decide, by decide,
    by decide, by decide,
    withdrawal_insufficient_funds stInsufficient reqWd "A" accA txPend
      (by decide) (by decide) (by decide) (by decide) (by decide) (by decide)
      (by decide) (by decide) (by decide)⟩

/-- C9 (refuted by the code): `processMessageWithRetry` retries every
failure.  The withdrawal "T3" fails with the permanent business error
`InsufficientFunds` on its first handler invocation, yet the retry loop
invokes the handler 3 times in total before giving up — the claim says the
handler is never invoked again after a permanent business-rule failure. -/
theorem permanent_error_retried :
    (processorHandler stInsufficient reqWd).2 = some Err.insufficientFunds
    ∧ (processMessageWithRetry (fun s => processorHandler s reqWd) maxRetries
        stInsufficient).2.1 = 3
    ∧ (processMessageWithRetry (fun s => processorHandler s reqWd) maxRetries
        stInsufficient).2.2 = some Err.insufficientFunds := by
  decide

/-- C9 (amended): a message failing with the permanent business-rule error
`InsufficientFunds` is retried at the message level like any other failure:
the handler is invoked exactly `maxRetries = 3` times, the final outcome is
still that error (so the message is then rejected without requeue), the
transaction is marked `failed`, and no account is ever mutated. -/
theorem permanent_error_retried_anyway (st : LedgerState)
    (r : TransactionRequest) (fromID : String) (a : Account) (t : Transaction)
    (hty : r.type = "withdrawal") (hfrom : r.fromAccountID = some fromID)
    (hamt : 0 < r.amount) (hcur : r.currency ≠ "")
    (hacct : GetByID st.accounts fromID = some a)
    (hactive : a.status = "active") (hcurm : a.currency = r.currency)
    (hbal : a.balance < r.amount)
    (htxn : txGetByID st.txns r.id = some t) :
    (processMessageWithRetry (fun s => processorHandler s r) maxRetries st).2.1 = 3
    ∧ (processMessageWithRetry (fun s => processorHandler s r) maxRetries st).2.2
        = some Err.insufficientFunds
    ∧ (processMessageWithRetry (fun s => processorHandler s r) maxRetries st).1.accounts
        = st.accounts
    ∧ (txGetByID (processMessageWithRetry (fun s => processorHandler s r)
          maxRetries st).1.txns r.id).map (fun u => u.status)
        = some TransactionStatus.failed := by
  have e1 := processorHandler_insufficient_eq st r fromID a hty hfrom hamt hcur
    hacct hactive hcurm hbal
  set st1 : LedgerState :=
    { accounts := st.accounts,
      txns := (txUpdateStatus st.txns r.id TransactionStatus.failed
        "insufficient funds").1 } with hst1
  have e2 := processorHandler_insufficient_eq st1 r fromID a hty hfrom hamt hcur
    (by exact hacct) hactive hcurm hbal
  set st2 : LedgerState :=
    { accounts := st1.accounts,
      txns := (txUpdateStatus st1.txns r.id TransactionStatus.failed
        "insufficient funds").1 } with hst2
  have e3 := processorHandler_insufficient_eq st2 r fromID a hty hfrom hamt hcur
    (by exact hacct) hactive hcurm hbal
  have hrun : processMessageWithRetry (fun s => processorHandler s r) maxRetries st
      = ({ accounts := st2.accounts,
           txns := (txUpdateStatus st2.txns r.id TransactionStatus.failed
             "insufficient funds").1 }, 3, some Err.insufficientFunds) := by
    simp only [maxRetries, processMessageWithRetry, e1, e2, e3]
  have g1 : txGetByID st1.txns r.id
      = some { t with
               status := TransactionStatus.failed,
               errorMessage := "insufficient funds" } :=
    txUpdateStatus_get st.txns r.id _ _ t htxn
  have g2 := txUpdateStatus_get st1.txns r.id TransactionStatus.failed
    "insufficient funds" _ g1
  have g3 := txUpdateStatus_get st2.txns r.id TransactionStatus.failed
    "insufficient funds" _ (by exact g2)
  rw [hrun]
  refine ⟨rfl, rfl, rfl, ?_⟩
  dsimp only
  rw [g3]
  rfl

/-- Witness for the amended C9 at the concrete insufficient-funds state:
three handler invocations, final error `InsufficientFunds`, store
unchanged, "T3" failed. -/
theorem permanent_error_retried_anyway_witness :
    reqWd.type = "withdrawal"
    ∧ reqWd.fromAccountID = some "A"
    ∧ 0 < reqWd.amount
    ∧ reqWd.currency ≠ ""
    ∧ GetByID stInsufficient.accounts "A" = some accA
    ∧ accA.status = "active"
    ∧ accA.currency = reqWd.currency
    ∧ accA.balance < reqWd.amount
    ∧ txGetByID stInsufficient.txns reqWd.id = some txPend
    ∧ ((processMessageWithRetry (fun s => processorHandler s reqWd) maxRetries
          stInsufficient).2.1 = 3
      ∧ (processMessageWithRetry (fun s => processorHandler s reqWd) maxRetries
          stInsufficient).2.2 = some Err.insufficientFunds
      ∧ (processMessageWithRetry (fun s => processorHandler s reqWd) maxRetries
          stInsufficient).1.accounts = stInsufficient.accounts
      ∧ (txGetByID (processMessageWithRetry (fun s => processorHandler s reqWd)
            maxRetries stInsufficient).1.txns reqWd.id).map (fun u => u.status)
          = some TransactionStatus.failed) :=
  ⟨by decide, by decide, by decide, by decide, by decide, by decide, by decide,
    by decide, by decide,
    permanent_error_retried_anyway stInsufficient reqWd "A" accA txPend
      (by decide) (by decide) (by decide) (by decide) (by decide) (by decide)
      (by decide) (by decide) (by decide)⟩

/-- C10: for a valid request, when the journal write has succeeded and the
publish to the dispatch queue fails with message `m`, `ProcessTransaction`
returns no transaction and an error, and the just-created journal record is
left with status `failed` and `m` as its error message — never as a
dangling pending record.  (The journal `Create` of the embedded mock always
succeeds; the account store is untouched throughout.) -/
theorem processTransaction_publish_failure (st : LedgerState)
    (r : TransactionRequest) (freshID m : String)
    (hv : r.IsValid = none) :
    (ProcessTransaction st r freshID (some m)).2.1 = none
    ∧ (ProcessTransaction st r freshID (some m)).2.2
        = some (Err.publishFailed m)
    ∧ (txGetByID (ProcessTransaction st r freshID (some m)).1.txns
        (if r.id = "" then freshID else r.id)).map
        (fun u => (u.status, u.errorMessage))
      = some (TransactionStatus.failed, m)
    ∧ (ProcessTransaction st r freshID (some m)).1.accounts = st.accounts := by
  unfold ProcessTransaction
  rw [hv]
  dsimp only
  refine ⟨rfl, rfl, ?_, rfl⟩
  have h3 : txGetByID (txUpdateStatus (txCreate st.txns
      { id := if r.id = "" then freshID else r.id, type := r.type,
        fromAccountID := r.fromAccountID, toAccountID := r.toAccountID,
        amount := r.amount, currency := r.currency,
        status := TransactionStatus.pending, errorMessage := "" })
      (if r.id = "" then freshID else r.id) TransactionStatus.failed m).1
      (if r.id = "" then freshID else r.id)
      = some { id := if r.id = "" then freshID else r.id, type := r.type,
               fromAccountID := r.fromAccountID, toAccountID := r.toAccountID,
               amount := r.amount, currency := r.currency,
               status := TransactionStatus.failed, errorMessage := m } :=
    txCreate_updateStatus_get st.txns _ TransactionStatus.failed m
  rw [h3]
  rfl

/-- Witness for C10: accepting the deposit "T1" into an empty journal while
the queue publish fails with "connection refused" journals "T1" as failed
with that message and returns an error. -/
theorem processTransaction_publish_failure_witness :
    reqDep.IsValid = none
    ∧ ((ProcessTransaction { accounts := [accA], txns := [] } reqDep "X"
          (some "connection refused")).2.1 = none
      ∧ (ProcessTransaction { accounts := [accA], txns := [] } reqDep "X"
          (some "connection refused")).2.2
          = some (Err.publishFailed "connection refused")
      ∧ (txGetByID (ProcessTransaction { accounts := [accA], txns := [] }
            reqDep "X" (some "connection refused")).1.txns
          (if reqDep.id = "" then "X" else reqDep.id)).map
          (fun u => (u.status, u.errorMessage))
        = some (TransactionStatus.failed, "connection refused")
      ∧ (ProcessTransaction { accounts := [accA], txns := [] } reqDep "X"
          (some "connection refused")).1.accounts = [accA]) :=
  ⟨by decide,
    processTransaction_publish_failure { accounts := [accA], txns := [] }
      reqDep "X" "connection refused" (by decide)⟩

end BankingLedger
